import Mathlib

/-!
# Verification of the pixel-forge generation-support pipeline

Shallow embedding of the engine sources of the `pixel-forge` repository
(`src/engine/rng.ts`, `palette.ts`, `retro.ts`, `pixelCanvas.ts`,
`similarityGuard.ts`, `index.ts`) together with theorems settling the
spec claims about them.

Modelling conventions:
* Packed 32-bit ARGB pixels are natural numbers; the JS bit operations
  `>>>`, `&`, `|` on in-range values are translated to the equivalent
  exact arithmetic on `Nat` (`/ 2^k`, `% 2^k`, and disjoint-bit sums).
* JS 32-bit wrap-around (`>>> 0`, `Math.imul`) is `% 2^32` on `Nat`.
* JS `number` values that the code manipulates as real quantities
  (normalized histograms, dither offsets, RNG floats) are modelled as
  exact rationals `ℚ`.  Every theorem below depends only on comparisons
  that are robust far beyond double-precision rounding error at the
  inputs it evaluates, so the idealization is harmless; where the code
  compares a float-computed quantity against a threshold we embed the
  mathematically equivalent exact comparison (documented at each site).
* Mutation of buffers and of the process-wide guard / palette registries
  is modelled by explicit state passing.
-/

namespace PixelForge

/-- `2^32`, the modulus of all JS unsigned-32-bit arithmetic. -/
def U32 : Nat := 4294967296

/-- `Math.imul` followed by `>>> 0`: 32-bit product. -/
def imul32 (a b : Nat) : Nat := a * b % U32

/-- Alpha channel of a packed ARGB pixel: `(c >>> 24) & 0xff`. -/
def alphaOf (c : Nat) : Nat := c / 16777216 % 256

/-- Red channel: `(c >>> 16) & 0xff`. -/
def redOf (c : Nat) : Nat := c / 65536 % 256

/-- Green channel: `(c >>> 8) & 0xff`. -/
def greenOf (c : Nat) : Nat := c / 256 % 256

/-- Blue channel: `c & 0xff`. -/
def blueOf (c : Nat) : Nat := c % 256

/-- RGB part of a packed pixel: `c & 0x00ffffff`. -/
def rgbOf (c : Nat) : Nat := c % 16777216

/-- `pixelCanvas.ts` `argb(a,r,g,b) = ((a&255)<<24)|((r&255)<<16)|((g&255)<<8)|(b&255)`;
the shifted fields occupy disjoint bits, so the `|`s are exact sums. -/
def argb (a r g b : Nat) : Nat :=
  a % 256 * 16777216 + r % 256 * 65536 + g % 256 * 256 + b % 256

/-- JS `|0` truncation toward zero of an exact rational
(the values this file applies it to all lie well inside int32 range). -/
def jsTrunc (q : ℚ) : ℤ := q.num / (q.den : ℤ)

/-! ## Seeded stream generator (`rng.ts`) -/

/-- `hashStr` of `rng.ts`: FNV-1a over UTF-16 code units (all labels used
by the engine are ASCII, where `Char.toNat` coincides with `charCodeAt`). -/
def hashStr (s : String) : Nat :=
  s.toList.foldl (fun h c => imul32 (h ^^^ c.toNat) 16777619) 2166136261

/-- One step of `mulberry32`: advances the internal 32-bit counter and
returns `(new counter, 32-bit output)`.  Translates
`t += 0x6D2B79F5; x = imul(x ^ (x>>>15), 1|x); x ^= x + imul(x ^ (x>>>7), 61|x);
return (x ^ (x>>>14)) >>> 0` with all intermediate values reduced mod `2^32`
exactly as the JS coercions (`imul`, `^`, `>>>`) do. -/
def mbStep (t : Nat) : Nat × Nat :=
  let t' := (t + 1831565813) % U32
  let x1 := imul32 (t' ^^^ (t' >>> 15)) (1 ||| t')
  let x2 := x1 ^^^ ((x1 + imul32 (x1 ^^^ (x1 >>> 7)) (61 ||| x1)) % U32)
  (t', x2 ^^^ (x2 >>> 14))

/-- `nextFloat()`: the 32-bit output divided by `2^32` — an exact dyadic
rational, hence exactly representable as a JS double. -/
def mbNextFloat (t : Nat) : ℚ × Nat :=
  let s := mbStep t
  ((s.2 : ℚ) / (U32 : ℚ), s.1)

/-- `nextInt(n) = Math.floor(next() * n)` (exact for every `n` the engine
passes, since `out * n < 2^53`). -/
def mbNextInt (t : Nat) (n : ℤ) : ℤ × Nat :=
  let f := mbNextFloat t
  ((f.1 * (n : ℚ)).floor, f.2)

/-- `split(label)`: derives a child seed
`((t ^ 0x9e3779b9) + (label ? hashStr(label) : 0)) >>> 0`.
JS truthiness makes the empty string contribute `0` like a missing label. -/
def mbSplit (t : Nat) (label : String) : Nat :=
  ((t ^^^ 2654435769) + (if label.isEmpty then 0 else hashStr label)) % U32

/-! ## Palettes (`palette.ts`) -/

structure Palette where
  name : String
  colors : List Nat
  maxColors : ℤ
deriving DecidableEq, Repr

/-- Built-in `NES_13` palette colors. -/
def nesColors : List Nat :=
  [0xff000000, 0xff1d2b53, 0xff7e2553, 0xff008751,
   0xffab5236, 0xff5f574f, 0xffc2c3c7, 0xfffff1e8,
   0xffff004d, 0xffffa300, 0xffffec27, 0xff00e436,
   0xff29adff]

/-- Built-in `GB_4` palette colors. -/
def gbColors : List Nat :=
  [0xff0f380f, 0xff306230, 0xff8bac0f, 0xff9bbc0f]

/-- Built-in `SNES_32` palette colors. -/
def snesColors : List Nat :=
  [0xff000000, 0xffffffff, 0xffc0c0c0, 0xff808080, 0xff404040,
   0xff1b1b3a, 0xff2d3a69, 0xff3b5dc9, 0xff6b9af5,
   0xff143d2b, 0xff217e4b, 0xff3dbb75, 0xff9bd6b4,
   0xff51220b, 0xff8b4513, 0xffc0723c, 0xffe0b47a,
   0xff3b0d2c, 0xff7a1b45, 0xffc43a5f, 0xfff58aa9,
   0xff3a1f0f, 0xff7a3f1f, 0xffbf7f3f, 0xffffaf6f,
   0xff161616, 0xff2c2c2c, 0xff4a4a4a, 0xff6f6f6f,
   0xff94c11f, 0xffd5e04a, 0xfff1f58f]

def NES_13 : Palette := ⟨"NES_13", nesColors, 13⟩
def GB_4 : Palette := ⟨"GB_4", gbColors, 4⟩
def SNES_32 : Palette := ⟨"SNES_32", snesColors, 32⟩

/-- Squared RGB distance used by `nearestColorIndex`:
`(r-cr)^2 + (g-cg)^2 + (b-cb)^2` — R, G, B channels only, alpha ignored. -/
def distSq (c1 c2 : Nat) : ℤ :=
  ((redOf c1 : ℤ) - redOf c2) ^ 2 + ((greenOf c1 : ℤ) - greenOf c2) ^ 2 +
    ((blueOf c1 : ℤ) - blueOf c2) ^ 2

/-- Loop body of `nearestColorIndex`: keep `(best, bestD)`, replace on a
strictly smaller distance (so ties keep the earlier index). -/
def nciStep (d : Nat → ℤ) (acc : Nat × ℤ) (i : Nat) : Nat × ℤ :=
  if d i < acc.2 then (i, d i) else acc

/-- `nearestColorIndex(p, argb)`: linear scan with `best = 0`,
`bestD = 1e9` (larger than any possible squared RGB distance). -/
def nearestColorIndex (p : Palette) (c : Nat) : Nat :=
  ((List.range p.colors.length).foldl
    (nciStep fun i => distSq c (p.colors.getD i 0)) (0, 1000000000)).1

/-- `quantizeNearest(p, src)`: alpha-0 pixels are skipped (`continue`);
otherwise the pixel becomes `((a&255)<<24) | (palette rgb & 0xffffff)`.
Out-of-range palette reads (empty palette) yield `undefined >>> 0 = 0`,
modelled by `getD _ 0`. -/
def quantizeNearest (p : Palette) (src : List Nat) : List Nat :=
  src.map fun px =>
    if alphaOf px = 0 then px
    else
      let rgb := p.colors.getD (nearestColorIndex p px) 0
      alphaOf px * 16777216 + rgbOf rgb

/-- In-place elementwise update of a buffer, indexed from `start`:
the pure counterpart of a `for` loop writing `data[i] = f(i, data[i])`. -/
def mapWithIndexFrom (f : Nat → α → α) : Nat → List α → List α
  | _, [] => []
  | i, c :: rest => f i c :: mapWithIndexFrom f (i + 1) rest

/-- `mapWithIndexFrom` starting at index `0`. -/
def mapWithIndex (f : Nat → α → α) (l : List α) : List α := mapWithIndexFrom f 0 l

/-- The 4×4 Bayer threshold matrix of `palette.ts`. -/
def Bayer4 : List (List Nat) :=
  [[0, 8, 2, 10], [12, 4, 14, 6], [3, 11, 1, 9], [15, 7, 13, 5]]

/-- The 8×8 Bayer threshold matrix of `palette.ts`. -/
def Bayer8 : List (List Nat) :=
  [[0, 32, 8, 40, 2, 34, 10, 42],
   [48, 16, 56, 24, 50, 18, 58, 26],
   [12, 44, 4, 36, 14, 46, 6, 38],
   [60, 28, 52, 20, 62, 30, 54, 22],
   [3, 35, 11, 43, 1, 33, 9, 41],
   [51, 19, 59, 27, 49, 17, 57, 25],
   [15, 47, 7, 39, 13, 45, 5, 37],
   [63, 31, 55, 23, 61, 29, 53, 21]]

/-- `Math.max(0, Math.min(255, z))` on an already-truncated integer. -/
def clamp255 (z : ℤ) : Nat := (max 0 (min 255 z)).toNat

/-- Per-pixel body of `applyBayer` at linear index `i` (`x = i % w`,
`y = i / w`, inverting `i = y*w + x`).  Transparent pixels are skipped.
The perturbation `n = t/(max-1) - 0.5` is carried exactly in `ℚ`; the
claims proved about this function do not depend on the sub-ulp difference
between this and the double-precision value.  `|0` is `jsTrunc`. -/
def bayerPixel (w : Nat) (p : Palette) (size : Nat) (i : Nat) (c : Nat) : Nat :=
  if alphaOf c = 0 then c
  else
    let m := if size = 4 then Bayer4 else Bayer8
    let mx : Nat := if size = 4 then 16 else 64
    let x := i % w
    let y := i / w
    let t := (m.getD (y % size) []).getD (x % size) 0
    let n : ℚ := (t : ℚ) / ((mx : ℚ) - 1) - 1 / 2
    let nr := clamp255 (jsTrunc ((redOf c : ℚ) + n * 28))
    let ng := clamp255 (jsTrunc ((greenOf c : ℚ) + n * 28))
    let nb := clamp255 (jsTrunc ((blueOf c : ℚ) + n * 28))
    let rgb := p.colors.getD (nearestColorIndex p (argb 255 nr ng nb)) 0
    alphaOf c * 16777216 + rgbOf rgb

/-- `applyBayer(src, w, h, p, size)`: the double loop over `y < h`, `x < w`
touches exactly the linear indices `i < w*h`; entries beyond stay put. -/
def applyBayer (src : List Nat) (w h : Nat) (p : Palette) (size : Nat) : List Nat :=
  mapWithIndex (fun i c => if i < w * h then bayerPixel w p size i c else c) src

/-- Second-nearest palette index scan of `applyPaletteMicroJitter`
(skips `nearestIdx`; the `Infinity` initializer is modelled by `10^9`,
which exceeds every possible squared RGB distance, so the first compared
entry always replaces it exactly as with `Infinity`). -/
def secondNearestIndex (p : Palette) (c : Nat) (nearestIdx : Nat) : Nat :=
  ((List.range p.colors.length).foldl
    (fun acc j =>
      if j = nearestIdx then acc
      else if distSq c (p.colors.getD j 0) < acc.2 then (j, distSq c (p.colors.getD j 0))
      else acc)
    (0, (1000000000 : ℤ))).1

/-- Per-pixel body of `applyPaletteMicroJitter`, threading the RNG counter.
`newR = max(0, min(255, nearestR + (secondR - nearestR) * jitter))` stays a
float in the source and is truncated by the `& 0xff` of the final packing. -/
def microJitterPixel (p : Palette) (strength : ℚ) (st : List Nat × Nat) (c : Nat) :
    List Nat × Nat :=
  if alphaOf c = 0 then (st.1 ++ [c], st.2)
  else
    let nearestIdx := nearestColorIndex p c
    let nc := p.colors.getD nearestIdx 0
    let sc := p.colors.getD (secondNearestIndex p c nearestIdx) 0
    let f := mbNextFloat st.2
    let jitter := (f.1 - 1 / 2) * strength
    let mix := fun (a b : Nat) =>
      (jsTrunc (max 0 (min 255 ((a : ℚ) + ((b : ℚ) - (a : ℚ)) * jitter)))).toNat % 256
    let px := argb (alphaOf c) (mix (redOf nc) (redOf sc)) (mix (greenOf nc) (greenOf sc))
      (mix (blueOf nc) (blueOf sc))
    (st.1 ++ [px], f.2)

/-- `applyPaletteMicroJitter(src, p, rng, strength)`; returns the new
buffer and the advanced RNG counter of the dedicated jitter stream. -/
def applyPaletteMicroJitter (src : List Nat) (p : Palette) (t : Nat) (strength : ℚ) :
    List Nat × Nat :=
  src.foldl (microJitterPixel p strength) ([], t)

/-! ## Retro enforcement (`retro.ts`) -/

/-- The `solid(x,y)` closure of the outline stage: in-bounds and top byte
of the snapshot nonzero (`(copy[y*w+x] >>> 24) > 0`). -/
def solid (copy : List Nat) (w h : Nat) (x y : ℤ) : Bool :=
  0 ≤ x && 0 ≤ y && x < (w : ℤ) && y < (h : ℤ) &&
    decide (copy.getD (y * w + x).toNat 0 / 16777216 > 0)

/-- Whether the snapshot has an opaque 4-neighbor of linear index `i`
(`solid(x+1,y) || solid(x-1,y) || solid(x,y+1) || solid(x,y-1)`). -/
def hasSolidNeighbor (copy : List Nat) (w h : Nat) (i : Nat) : Bool :=
  let x : ℤ := (i % w : Nat)
  let y : ℤ := (i / w : Nat)
  solid copy w h (x + 1) y || solid copy w h (x - 1) y ||
    solid copy w h x (y + 1) || solid copy w h x (y - 1)

/-- The fixed outline color `argb(255, 20, 20, 20)`. -/
def outlineColor : Nat := argb 255 20 20 20

/-- The outline stage of `enforceRetro`: all solidity tests read the
pre-stage snapshot (`copy = data.slice()`), and only snapshot-transparent
pixels with an opaque 4-neighbor are overwritten. -/
def outlinePass (w h : Nat) (data : List Nat) : List Nat :=
  mapWithIndex
    (fun i c =>
      if i < w * h ∧ c / 16777216 = 0 then
        if hasSolidNeighbor data w h i then outlineColor else c
      else c)
    data

inductive DitherMode | none | bayer4 | bayer8
deriving DecidableEq, Repr

inductive Quantizer | none | nearest
deriving DecidableEq, Repr

structure RetroPolicy where
  outlineWidth : Nat
  microJitter : Bool := false
  microJitterStrength : Option ℚ := Option.none
deriving DecidableEq, Repr

/-- The engine context handed to modules and to `enforceRetro`
(`canvas` is `w`/`h`/`data`, `rng` is the mulberry32 counter). -/
structure EngineContext where
  w : Nat
  h : Nat
  data : List Nat
  rngT : Nat
  palette : Palette
  dither : DitherMode
  quantizer : Quantizer
  retro : RetroPolicy
  timeBudgetMs : Nat := 16
deriving Repr

/-- The buffer contents after the jitter, quantize and dither stages of
`enforceRetro` — i.e. the snapshot the outline stage starts from. -/
def preOutlineData (ctx : EngineContext) : List Nat :=
  let d1 :=
    if ctx.retro.microJitter then
      (applyPaletteMicroJitter ctx.data ctx.palette (mbSplit ctx.rngT "microJitter")
        (ctx.retro.microJitterStrength.getD (15 / 100))).1
    else ctx.data
  let d2 := if ctx.quantizer = Quantizer.nearest then quantizeNearest ctx.palette d1 else d1
  if ctx.dither ≠ DitherMode.none then
    applyBayer d2 ctx.w ctx.h ctx.palette (if ctx.dither = DitherMode.bayer4 then 4 else 8)
  else d2

/-- `enforceRetro(ctx)`: micro-jitter → quantize → ordered dither →
1px outline, each stage toggled by the context exactly as in `retro.ts`.
The jitter stream is `ctx.rng.split('microJitter')`; the context's own
RNG counter is not advanced. -/
def enforceRetro (ctx : EngineContext) : EngineContext :=
  let d := preOutlineData ctx
  { ctx with
    data := if ctx.retro.outlineWidth > 0 then outlinePass ctx.w ctx.h d else d }

/-! ## Pixel canvas (`pixelCanvas.ts`) -/

/-- `createPixelCanvas(w, h)` data: `new Uint32Array(w*h)`, all zero. -/
def createCanvasData (w h : Nat) : List Nat := List.replicate (w * h) 0

/-- `blit(src, dx, dy)`: copy only pixels with nonzero alpha, clipped to
the destination bounds. -/
def blit (dw dh : Nat) (ddata : List Nat) (sw sh : Nat) (sdata : List Nat)
    (dx dy : ℤ) : List Nat :=
  (List.range sh).foldl
    (fun accY y =>
      (List.range sw).foldl
        (fun acc x =>
          let c := sdata.getD (y * sw + x) 0
          if alphaOf c = 0 then acc
          else
            let tx := dx + x
            let ty := dy + y
            if tx < 0 || ty < 0 || tx ≥ (dw : ℤ) || ty ≥ (dh : ℤ) then acc
            else acc.set (ty * dw + tx).toNat c)
        accY)
    ddata

/-! ## Similarity guard (`similarityGuard.ts`) -/

/-- Parameter-map values: the engine stores JS numbers, booleans and
strings in its `Record<string, any>` parameter maps. -/
inductive ParamValue
  | num (q : ℚ)
  | boolean (b : Bool)
  | str (s : String)
deriving DecidableEq, Repr

/-- A parameter map in insertion order (JS object entries). -/
abbrev Params := List (String × ParamValue)

/-- `rgbToGrayscale`: `Math.floor(0.299 r + 0.587 g + 0.114 b)`, computed
at exact rational precision, i.e. `(299 r + 587 g + 114 b) / 1000` in `ℕ`.
(The double-precision sum can land a hair below an exact integer — e.g.
pure grays — moving the floor by one; no theorem below evaluates the luma
at such a boundary color, and all proved properties depend only on luma
equalities and on threshold comparisons with wide margins.) -/
def lumaOf (c : Nat) : Nat := (299 * redOf c + 587 * greenOf c + 114 * blueOf c) / 1000

/-- Sobel X kernel, row-major, from `computeEdgeHistogram`. -/
def sobelX : List ℤ := [-1, 0, 1, -2, 0, 2, -1, 0, 1]

/-- Sobel Y kernel, row-major. -/
def sobelY : List ℤ := [-1, -2, -1, 0, 0, 0, 1, 2, 1]

/-- The `(gx, gy)` Sobel accumulation at interior pixel `(x, y)`:
transparent taps are skipped (`continue`), opaque taps contribute
`intensity * kernel[(ky+1)*3 + (kx+1)]`. -/
def sobelAt (w : Nat) (data : List Nat) (x y : Nat) : ℤ × ℤ :=
  (List.range 9).foldl
    (fun acc k =>
      if alphaOf (data.getD ((y + k / 3 - 1) * w + (x + k % 3 - 1)) 0) = 0 then acc
      else
        (acc.1 + (lumaOf (data.getD ((y + k / 3 - 1) * w + (x + k % 3 - 1)) 0) : ℤ) *
            sobelX.getD k 0,
         acc.2 + (lumaOf (data.getD ((y + k / 3 - 1) * w + (x + k % 3 - 1)) 0) : ℤ) *
            sobelY.getD k 0))
    (0, 0)

/-- The 8-way direction bin
`floor(((atan2(gy,gx) + π) / 2π) * 8) % 8`, evaluated exactly: the octant
of `(gx, gy)` determined by the signs and by `|gy|` vs `|gx|`.  For
axis-aligned gradients (one component zero) the double-precision
computation of the source is provably exact and agrees with this
definition; on the `|gy| = |gx|` diagonals we use the mathematical
half-open-octant convention (no theorem below evaluates a diagonal). -/
def angleBin (gy gx : ℤ) : Nat :=
  if gy < 0 then
    if gx < 0 then (if |gy| ≥ |gx| then 1 else 0)
    else if gx = 0 then 2
    else (if |gy| > |gx| then 2 else 3)
  else if gy = 0 then (if gx < 0 then 0 else 4)
  else
    if gx > 0 then (if |gy| < |gx| then 4 else 5)
    else if gx = 0 then 6
    else (if |gy| > |gx| then 6 else 7)

/-- Bump bin `b` of an 8-entry count vector. -/
def bumpBin (counts : List Nat) (b : Nat) : List Nat :=
  counts.set b (counts.getD b 0 + 1)

/-- The interior pixel scan of `computeEdgeHistogram`: for each
`1 ≤ y < h-1`, `1 ≤ x < w-1`, vote into a direction bin when the squared
gradient magnitude exceeds `30^2` (the source's `sqrt(gx²+gy²) > 30`,
which is exactly equivalent since both sides are exactly representable). -/
def edgeCounts (w h : Nat) (data : List Nat) : List Nat :=
  (List.range' 1 (h - 2)).foldl
    (fun accY y =>
      (List.range' 1 (w - 2)).foldl
        (fun acc x =>
          let g := sobelAt w data x y
          if g.1 ^ 2 + g.2 ^ 2 > 900 then bumpBin acc (angleBin g.2 g.1) else acc)
        accY)
    (List.replicate 8 0)

/-- `computeEdgeHistogram`: normalize the 8 counts to sum 1, or return
the all-zero histogram when no edges were found. -/
def computeEdgeHistogram (w h : Nat) (data : List Nat) : List ℚ :=
  if (edgeCounts w h data).sum > 0 then
    (edgeCounts w h data).map fun v : Nat => (v : ℚ) / ((edgeCounts w h data).sum : ℚ)
  else (edgeCounts w h data).map fun v : Nat => (v : ℚ)

/-- Opaque-pixel color counts in first-insertion order (JS `Map`):
`(rgb, count)` pairs, later occurrences bump the existing entry. -/
def bumpColor (l : List (Nat × Nat)) (rgb : Nat) : List (Nat × Nat) :=
  match l with
  | [] => [(rgb, 1)]
  | e :: rest => if e.1 = rgb then (e.1, e.2 + 1) :: rest else e :: bumpColor rest rgb

/-- Color counts of a buffer (transparent pixels skipped). -/
def colorCounts (data : List Nat) : List (Nat × Nat) :=
  data.foldl
    (fun acc px => if alphaOf px = 0 then acc else bumpColor acc (rgbOf px)) []

/-- Stable insertion into a count-descending list: a new entry goes after
all entries with a count `≥` its own, matching JS's stable
`sort((a,b) => b[1]-a[1])`. -/
def insertCountDesc (x : Nat × Nat) : List (Nat × Nat) → List (Nat × Nat)
  | [] => [x]
  | y :: ys => if y.2 ≥ x.2 then y :: insertCountDesc x ys else x :: y :: ys

/-- Stable descending sort by count. -/
def sortCountDesc (l : List (Nat × Nat)) : List (Nat × Nat) :=
  l.foldl (fun acc x => insertCountDesc x acc) []

/-- `computePaletteUsage`: the 32 most frequent opaque colors, each
normalized by the total opaque pixel count; missing buckets stay 0. -/
def computePaletteUsage (data : List Nat) : List ℚ :=
  let counts := colorCounts data
  let total : Nat := (counts.map Prod.snd).sum
  let top := (sortCountDesc counts).take 32
  top.map (fun e => (e.2 : ℚ) / (total : ℚ)) ++ List.replicate (32 - top.length) 0

/-- Dot product over the common prefix (`minLen`) of two histograms,
as in `compareHistograms`. -/
def dotMin (h1 h2 : List ℚ) : ℚ := (List.zipWith (· * ·) h1 h2).sum

/-- Squared norm of `h1` over the common prefix  — the source accumulates
`norm1` only over `minLen` entries. -/
def normSqMin (h1 h2 : List ℚ) : ℚ :=
  ((h1.take (min h1.length h2.length)).map fun v => v * v).sum

/-- The predicate `compareHistograms(h1, h2) > θ` for a threshold
`θ ≥ 0`, embedded exactly: the source returns `0` when either norm is
zero (then `0 > θ` is false), and otherwise
`dot / (√norm1 · √norm2) > θ  ↔  dot > 0 ∧ dot² > θ² · norm1 · norm2`,
which avoids the square roots while deciding the very same comparison. -/
def exceedsCosine (h1 h2 : List ℚ) (θ : ℚ) : Bool :=
  if normSqMin h1 h2 = 0 ∨ normSqMin h2 h1 = 0 then false
  else
    decide (0 < dotMin h1 h2 ∧
      θ ^ 2 * (normSqMin h1 h2 * normSqMin h2 h1) < dotMin h1 h2 ^ 2)

/-- A sprite signature (`timestamp` is `Date.now()` in the source; it is
never read by any comparison, so it is omitted from the embedding). -/
structure SpriteSignature where
  edgeHistogram : List ℚ
  paletteUsage : List ℚ
  params : Params
deriving DecidableEq, Repr

structure SimilarityGuardConfig where
  maxHistory : Nat
  edgeThreshold : ℚ
  paletteThreshold : ℚ
  maxRetries : Nat
deriving DecidableEq, Repr

/-- The default guard configuration.  The source thresholds are the
doubles `0.85` and `0.9`; they are carried as the exact rationals they
denote (every similarity compared against them in this file differs from
the threshold by far more than the double-rounding gap). -/
def defaultGuardConfig : SimilarityGuardConfig :=
  { maxHistory := 50, edgeThreshold := 85 / 100, paletteThreshold := 9 / 10, maxRetries := 5 }

/-- `generateSignature(canvas, params)`. -/
def generateSignature (w h : Nat) (data : List Nat) (params : Params) : SpriteSignature :=
  { edgeHistogram := computeEdgeHistogram w h data
    paletteUsage := computePaletteUsage data
    params := params }

/-- `isSimilar(signature)`: some history entry exceeds both thresholds. -/
def isSimilar (cfg : SimilarityGuardConfig) (history : List SpriteSignature)
    (sig : SpriteSignature) : Bool :=
  history.any fun e =>
    exceedsCosine sig.edgeHistogram e.edgeHistogram cfg.edgeThreshold &&
      exceedsCosine sig.paletteUsage e.paletteUsage cfg.paletteThreshold

/-- `addToHistory`: append, then drop the oldest entry once over capacity. -/
def addToHistory (cfg : SimilarityGuardConfig) (history : List SpriteSignature)
    (sig : SpriteSignature) : List SpriteSignature :=
  let h := history ++ [sig]
  if h.length > cfg.maxHistory then h.drop 1 else h

/-- `suggestParamNudges(params, rng)`: numeric entries get
`max(0, min(1, v + (nextFloat() - 0.5) * 0.2))` (the literal `0.2`
carried exactly), drawing in entry order; others pass through. -/
def suggestParamNudges (params : Params) (t : Nat) : Params × Nat :=
  params.foldl
    (fun acc e =>
      match e.2 with
      | ParamValue.num q =>
        let f := mbNextFloat acc.2
        (acc.1 ++ [(e.1, ParamValue.num (max 0 (min 1 (q + (f.1 - 1 / 2) * (2 / 10)))))], f.2)
      | v => (acc.1 ++ [(e.1, v)], acc.2))
    ([], t)

/-! ## Orchestrator (`index.ts`) -/

/-- A sprite module as the orchestrator uses it: `generate` draws into the
context's canvas and may draw from the context's stream (mutation modelled
by returning the updated context); `finalize` is optional. -/
structure SpriteModule where
  generate : EngineContext → Params → EngineContext
  finalize : Option (EngineContext → Params → EngineContext) := Option.none

/-- The decomposed generation request of `runModule`. -/
structure EngineParams where
  spriteType : String
  seed : Nat
  size : Nat
  paletteName : String
  dither : DitherMode
  quantizer : Quantizer
  outline : Nat
  params : Params
  useSimilarityGuard : Bool := false

/-- First-match association-list lookup (JS own-property access). -/
def lookupA (l : List (String × α)) (k : String) : Option α :=
  (l.find? fun e => e.1 = k).map Prod.snd

/-- The built-in palette lookup table `Palettes` in its initial state. -/
def basePalettes : List (String × Palette) :=
  [("NES_13", NES_13), ("SNES_32", SNES_32), ("GB_4", GB_4)]

/-- One attempt / the standard generation: fresh (or given) canvas,
module draw, retro enforcement, optional finalize; returns the context. -/
def generateOnce (mod : SpriteModule) (palette : Palette) (opts : EngineParams)
    (data : List Nat) (t : Nat) (params : Params) : EngineContext :=
  let ctx : EngineContext :=
    { w := opts.size, h := opts.size, data := data, rngT := t, palette := palette
      dither := opts.dither, quantizer := opts.quantizer
      retro := { outlineWidth := opts.outline }, timeBudgetMs := 16 }
  let ctx1 := mod.generate ctx params
  let ctx2 := enforceRetro ctx1
  match mod.finalize with
  | Option.some f => f ctx2 params
  | Option.none => ctx2

/-- The buffer drawn by attempt number `retryCount` of the guard loop:
a fresh canvas and the sub-stream `rng.split("attempt_" + retryCount)`. -/
def attemptData (mod : SpriteModule) (palette : Palette) (opts : EngineParams)
    (t : Nat) (retryCount : Nat) (params : Params) : List Nat :=
  (generateOnce mod palette opts (createCanvasData opts.size opts.size)
    (mbSplit t ("attempt_" ++ toString retryCount)) params).data

/-- The `while (retryCount < maxRetries)` similarity-guard loop, with
`fuel = maxRetries - retryCount` making the countdown structural.
Returns `some (buffer, signature)` on acceptance, or `none` with the
final (nudged) parameters and parent RNG counter on exhaustion. -/
def guardLoop (mod : SpriteModule) (palette : Palette) (opts : EngineParams)
    (history : List SpriteSignature) :
    Nat → Nat → Params → Nat → Option (List Nat × SpriteSignature) × Params × Nat
  | 0, _, params, t => (Option.none, params, t)
  | fuel + 1, retryCount, params, t =>
    let data := attemptData mod palette opts t retryCount params
    let sig := generateSignature opts.size opts.size data params
    if isSimilar defaultGuardConfig history sig then
      let nudged := suggestParamNudges params t
      guardLoop mod palette opts history fuel (retryCount + 1) nudged.1 nudged.2
    else (Option.some (data, sig), params, t)

/-- `runModule(mod, opts)` against an explicit palette registry and
similarity-guard history (the source's process-wide `Palettes` map and
`globalSimilarityGuard`); returns the produced buffer and the new guard
history.  Unknown palette names fall back to `Palettes.NES_13`.  On guard
acceptance the attempt canvas is `blit` onto the outer canvas; when the
retry cap is exhausted — or the guard is off — the code falls through to
the standard generation with the parent stream. -/
def runModule (registry : List (String × Palette)) (mod : SpriteModule)
    (opts : EngineParams) (history : List SpriteSignature) :
    List Nat × List SpriteSignature :=
  let palette := (lookupA registry opts.paletteName).getD NES_13
  let t0 := opts.seed % U32
  let canvas := createCanvasData opts.size opts.size
  let afterLoop :=
    if opts.useSimilarityGuard then
      guardLoop mod palette opts history defaultGuardConfig.maxRetries 0 opts.params t0
    else (Option.none, opts.params, t0)
  match afterLoop with
  | (Option.some (data, sig), _, _) =>
    (blit opts.size opts.size canvas opts.size opts.size data 0 0,
      addToHistory defaultGuardConfig history sig)
  | (Option.none, finalParams, t) =>
    let ctx := generateOnce mod palette opts canvas t finalParams
    if opts.useSimilarityGuard then
      (ctx.data, addToHistory defaultGuardConfig history
        (generateSignature opts.size opts.size ctx.data finalParams))
    else (ctx.data, history)

/-! ## Custom palette registry (`palette.ts`) -/

/-- The process-wide palette stores: `customPalettes` and the combined
`Palettes` lookup (which starts from the built-ins). -/
structure RegistryState where
  customPalettes : List (String × Palette)
  palettes : List (String × Palette)
deriving Repr

/-- The initial registry: no custom palettes, the three built-ins. -/
def initialRegistry : RegistryState := ⟨[], basePalettes⟩

/-- JS object property assignment on an association list: replace the
value in place when the key exists, else append. -/
def upsertA (l : List (String × α)) (k : String) (v : α) : List (String × α) :=
  match l with
  | [] => [(k, v)]
  | e :: rest => if e.1 = k then (k, v) :: rest else e :: upsertA rest k v

/-- JS `delete obj[k]` on an association list. -/
def deleteA (l : List (String × α)) (k : String) : List (String × α) :=
  l.filter fun e => ¬e.1 = k

/-- The sanitized identifier `palette.name.replace(/[^a-zA-Z0-9_]/g, '_')`. -/
def sanitizeId (name : String) : String :=
  String.mk (name.toList.map fun ch =>
    if ch.isAlphanum ∨ ch = '_' then ch else '_')

/-- `addCustomPalette(palette)`: register under the sanitized identifier
in both stores. -/
def addCustomPalette (st : RegistryState) (p : Palette) : RegistryState :=
  let safeId := sanitizeId p.name
  ⟨upsertA st.customPalettes safeId p, upsertA st.palettes safeId p⟩

/-- `removeCustomPalette(paletteId)`: delete from both stores only when
`customPalettes[paletteId]` is present (palette values are objects, hence
truthy; prototype-inherited properties never make real entries appear or
own entries vanish, so own-property lookup is the faithful test). -/
def removeCustomPalette (st : RegistryState) (paletteId : String) : RegistryState :=
  if (lookupA st.customPalettes paletteId).isSome then
    ⟨deleteA st.customPalettes paletteId, deleteA st.palettes paletteId⟩
  else st

/-- The JSON value tree.  Numbers are carried at integer precision: every
number this engine serializes (colors below `2^32` and integral
`maxColors`) is exactly representable, so the double-typed wire layer is
exact on them. -/
inductive Json
  | null
  | boolean (b : Bool)
  | num (z : ℤ)
  | str (s : String)
  | arr (elems : List Json)
  | obj (fields : List (String × Json))
deriving Repr

/-- JS truthiness of a JSON value (`!x` tests in the import path). -/
def jsTruthy : Json → Bool
  | Json.null => false
  | Json.boolean b => b
  | Json.num z => decide (z ≠ 0)
  | Json.str s => decide (¬s.isEmpty)
  | Json.arr _ => true
  | Json.obj _ => true

/-- `JSON.stringify` of a `Uint32Array`: typed arrays have no `toJSON`
and are not JS arrays, so they serialize as objects with the numeric
string keys `"0", "1", …` in index order. -/
def colorsToJson (colors : List Nat) : Json :=
  Json.obj ((colors.enum.map fun e => (toString e.1, Json.num (e.2 : ℤ))))

/-- `JSON.stringify` of one stored palette record. -/
def paletteToJson (p : Palette) : Json :=
  Json.obj [("name", Json.str p.name), ("colors", colorsToJson p.colors),
    ("maxColors", Json.num p.maxColors)]

/-- `exportCustomPalettes()`: the serialized `customPalettes` map.  The
string layer (`JSON.stringify` / `JSON.parse`) is a faithful bijection on
these trees, so the embedding works with the tree directly. -/
def exportCustomPalettes (st : RegistryState) : Json :=
  Json.obj (st.customPalettes.map fun e => (e.1, paletteToJson e.2))

/-- Decimal value of a digit list, accumulated left to right, as
`parseInt` does. -/
def parseDigits (acc : ℤ) (l : List Char) : ℤ :=
  l.foldl (fun n c => n * 10 + ((c.toNat : ℤ) - 48)) acc

/-- Sign-aware core of `parseInt`: longest decimal-digit prefix, `none`
(JS `NaN`, filtered out by the importer) when it is empty. -/
def jsParseCore (l : List Char) (sign : ℤ) : Option ℤ :=
  if (l.takeWhile Char.isDigit).isEmpty then Option.none
  else Option.some (sign * parseDigits 0 (l.takeWhile Char.isDigit))

/-- `parseInt` on an object key: optional sign followed by a longest
decimal-digit prefix. -/
def jsParseInt (s : String) : Option ℤ :=
  match s.toList with
  | [] => Option.none
  | c :: rest =>
    if c = '-' then jsParseCore rest (-1)
    else if c = '+' then jsParseCore rest 1
    else jsParseCore (c :: rest) 1

/-- JS `ToUint32` applied by a `Uint32Array` store of a parsed number. -/
def toUint32 (z : ℤ) : Nat := (z % (U32 : ℤ)).toNat

/-- Element conversion of `new Uint32Array(values)`: non-numeric JSON
values coerce through `NaN` to `0`. -/
def jsonToUint32 : Json → Nat
  | Json.num z => toUint32 z
  | _ => 0

/-- Stable ascending insertion by parsed key, matching
`.sort((a, b) => a - b)` on the numeric keys (stable for equal keys). -/
def insertKeyAsc (x : ℤ × Json) : List (ℤ × Json) → List (ℤ × Json)
  | [] => [x]
  | y :: ys => if y.1 ≤ x.1 then y :: insertKeyAsc x ys else x :: y :: ys

/-- Stable ascending sort by parsed key. -/
def sortKeyAsc (l : List (ℤ × Json)) : List (ℤ × Json) :=
  l.foldl (fun acc x => insertKeyAsc x acc) []

/-- The three legal color-list encodings of `importCustomPalettes`:
plain array, (impossible after `JSON.parse`) typed array, or object with
numeric string keys sorted ascending; anything else is rejected. -/
def colorsFromJson : Json → Option (List Nat)
  | Json.arr elems => Option.some (elems.map jsonToUint32)
  | Json.obj fields =>
    let keyed := fields.filterMap fun e =>
      (jsParseInt e.1).map fun k => (k, e.2)
    Option.some ((sortKeyAsc keyed).map fun e => jsonToUint32 e.2)
  | _ => Option.none

/-- Reconstruction of a single palette record during import: requires a
truthy `name` (the engine only ever stores string names; a non-string
truthy name is malformed input outside this model and is treated as a
skip), a truthy object/array `colors`, a numeric `maxColors`, and passes
the final `colors.length > 0 && maxColors > 0` validation. -/
def paletteFromJson : Json → Option Palette
  | Json.obj fields =>
    match lookupA fields "name", lookupA fields "colors", lookupA fields "maxColors" with
    | Option.some (Json.str name), Option.some colorsJson, Option.some (Json.num mc) =>
      if name.isEmpty ∨ ¬jsTruthy colorsJson then Option.none
      else
        match colorsFromJson colorsJson with
        | Option.some colors =>
          if colors.length > 0 ∧ mc > 0 then Option.some ⟨name, colors, mc⟩
          else Option.none
        | Option.none => Option.none
    | _, _, _ => Option.none
  | _ => Option.none

/-- `importCustomPalettes(jsonString)` given the parsed tree: iterate the
top-level entries (`Object.entries` also enumerates array elements under
their index keys), skip malformed records individually, store accepted
ones in both registries under the *raw* entry key, and succeed iff at
least one record was accepted.  A non-object top level yields no entries
(or a thrown `TypeError` caught by the source), i.e. failure. -/
def importCustomPalettes (j : Json) (st : RegistryState) : Bool × RegistryState :=
  let entries : List (String × Json) :=
    match j with
    | Json.obj fields => fields
    | Json.arr elems => elems.enum.map fun e => (toString e.1, e.2)
    | _ => []
  let result := entries.foldl
    (fun (acc : Nat × RegistryState) e =>
      match paletteFromJson e.2 with
      | Option.some p =>
        (acc.1 + 1,
          ⟨upsertA acc.2.customPalettes e.1 p, upsertA acc.2.palettes e.1 p⟩)
      | Option.none => acc)
    (0, st)
  (decide (result.1 > 0), result.2)

/-! ## A concrete content generator for exercising `runModule`

The determinism and retry-cap claims quantify over all sprite modules;
they are settled below on the following instance, which honors the
content-generator contract (it only writes the canvas through the pixel
operations and draws from the context's stream): it paints the left half
black and the right half green and keys the top-left pixel's color off
one bounded draw (`nextInt(2)`) from the context stream. -/

/-- The fixed two-tone background of the test generator. -/
def twoTone (w h : Nat) : List Nat :=
  (List.range (w * h)).map fun i =>
    if i % w < w / 2 then 0xff000000 else 0xff00ff00

/-- The test generator: background plus a stream-dependent corner pixel
(`argb(255, v, 0, 0)` with `v = nextInt(2)`, i.e. `0xff000000` or
`0xff010000` — same luma, different RGB). -/
def testGenerate (ctx : EngineContext) (_params : Params) : EngineContext :=
  let d := mbNextInt ctx.rngT 2
  { ctx with
    data := (twoTone ctx.w ctx.h).set 0 (argb 255 d.1.toNat 0 0)
    rngT := d.2 }

def testModule : SpriteModule := { generate := testGenerate }

/-- The request used in the determinism / retry-cap scenarios: seed 0,
8×8, no quantization / dithering / outline, guard enabled. -/
def scenarioOpts : EngineParams :=
  { spriteType := "test", seed := 0, size := 8, paletteName := "NES_13"
    dither := DitherMode.none, quantizer := Quantizer.none, outline := 0
    params := [], useSimilarityGuard := true }

/-- The first guarded call of the scenario, from an empty guard history. -/
def scenarioRun1 : List Nat × List SpriteSignature :=
  runModule basePalettes testModule scenarioOpts []

/-- The second guarded call, against the history the first call left. -/
def scenarioRun2 : List Nat × List SpriteSignature :=
  runModule basePalettes testModule scenarioOpts scenarioRun1.2

/-- Decimal digit characters of `n`, most significant first — the
specification view of `Nat.toDigitsCore` used to reason about the
`toString`/`parseInt` round trip of exported color keys. -/
def natDigits (n : Nat) : List Char :=
  if h : n < 10 then [Nat.digitChar n]
  else natDigits (n / 10) ++ [Nat.digitChar (n % 10)]
termination_by n
decreasing_by exact Nat.div_lt_self (by omega) (by omega)

/-! ## Helper lemmas -/

theorem foldl_const_of_mem {α β : Type _} (f : β → α → β) (l : List α) (init : β)
    (h : ∀ acc x, x ∈ l → f acc x = acc) : l.foldl f init = init := by
  induction l generalizing init with
  | nil => rfl
  | cons a as ih =>
    rw [List.foldl_cons, h init a (List.mem_cons_self a as)]
    exact ih init fun acc x hx => h acc x (List.mem_cons_of_mem a hx)

theorem getD_mem_or_eq {α : Type _} [Inhabited α] (l : List α) (i : Nat) (d : α) :
    l.getD i d ∈ l ∨ l.getD i d = d := by
  rcases Nat.lt_or_ge i l.length with hi | hi
  · left
    rw [List.getD_eq_getElem l d hi]
    exact l.getElem_mem hi
  · right
    exact List.getD_eq_default l d hi

theorem mapWithIndexFrom_getD {α : Type _} (f : Nat → α → α) (d : α) :
    ∀ (l : List α) (s i : Nat),
      (mapWithIndexFrom f s l).getD i d =
        if i < l.length then f (s + i) (l.getD i d) else d := by
  intro l
  induction l with
  | nil => intro s i; simp [mapWithIndexFrom]
  | cons a as ih =>
    intro s i
    cases i with
    | zero => simp [mapWithIndexFrom]
    | succ j =>
      simp only [mapWithIndexFrom, List.getD_cons_succ, List.length_cons]
      rw [ih (s + 1) j]
      have : s + 1 + j = s + (j + 1) := by omega
      rw [this]
      by_cases hj : j < as.length
      · rw [if_pos hj, if_pos (by omega)]
      · rw [if_neg hj, if_neg (by omega)]

theorem mapWithIndex_getD {α : Type _} (f : Nat → α → α) (d : α) (l : List α) (i : Nat) :
    (mapWithIndex f l).getD i d = if i < l.length then f i (l.getD i d) else d := by
  have := mapWithIndexFrom_getD f d l 0 i
  simpa [mapWithIndex] using this

theorem alphaOf_lt (c : Nat) : alphaOf c < 256 := Nat.mod_lt _ (by norm_num)

theorem rgbOf_lt (c : Nat) : rgbOf c < 16777216 := Nat.mod_lt _ (by norm_num)

theorem alphaOf_pack (a m : Nat) (ha : a < 256) (hm : m < 16777216) :
    alphaOf (a * 16777216 + m) = a := by
  unfold alphaOf; omega

theorem rgbOf_pack (a m : Nat) (hm : m < 16777216) :
    rgbOf (a * 16777216 + m) = m := by
  unfold rgbOf; omega

/-! ## C9 — `nextInt(0)` returns 0 -/

/-- C9: For every mulberry32 stream state, `nextInt(0)` evaluates
`Math.floor(next() * 0) = Math.floor(0) = 0` and never throws: the
implementation resolves the `n = 0` case — which the spec leaves open
between returning 0 and failing fast — by returning 0 (the embedding is
total, mirroring the exception-free source). -/
theorem c9_nextInt_zero (t : Nat) : (mbNextInt t 0).1 = 0 := by
  simp only [mbNextInt, Int.cast_zero, mul_zero]
  rfl

/-! ## C10 — removing an unregistered palette is a no-op -/

/-- C10: `removeCustomPalette(id)` with an identifier absent from the
custom-palette store leaves both the custom store and the combined
`Palettes` lookup completely unchanged (the guard
`if (customPalettes[paletteId])` fails, so neither `delete` runs).  In
particular a built-in palette (`NES_13`, `SNES_32`, `GB_4`) that has not
been shadowed by a same-named custom palette can never be removed: it has
no custom entry, so the call returns the state — built-ins included —
untouched. -/
theorem c10_remove_absent (st : RegistryState) (id : String)
    (h : lookupA st.customPalettes id = Option.none) :
    removeCustomPalette st id = st := by
  unfold removeCustomPalette
  rw [h]
  simp

/-- C10 witness: removing the (unshadowed) built-in identifier `NES_13`
from the initial registry changes nothing. -/
theorem c10_remove_absent_witness :
    lookupA initialRegistry.customPalettes "NES_13" = Option.none ∧
      removeCustomPalette initialRegistry "NES_13" = initialRegistry :=
  ⟨rfl, c10_remove_absent initialRegistry "NES_13" rfl⟩

/-! ## C5 — nearest color index minimizes RGB distance, lowest index wins -/

theorem distSq_lt_init (c1 c2 : Nat) : distSq c1 c2 < 1000000000 := by
  have h1 : redOf c1 < 256 := Nat.mod_lt _ (by norm_num)
  have h2 : redOf c2 < 256 := Nat.mod_lt _ (by norm_num)
  have h3 : greenOf c1 < 256 := Nat.mod_lt _ (by norm_num)
  have h4 : greenOf c2 < 256 := Nat.mod_lt _ (by norm_num)
  have h5 : blueOf c1 < 256 := Nat.mod_lt _ (by norm_num)
  have h6 : blueOf c2 < 256 := Nat.mod_lt _ (by norm_num)
  have e1 : ((redOf c1 : ℤ) - redOf c2) ^ 2 ≤ 255 ^ 2 := sq_le_sq' (by omega) (by omega)
  have e2 : ((greenOf c1 : ℤ) - greenOf c2) ^ 2 ≤ 255 ^ 2 := sq_le_sq' (by omega) (by omega)
  have e3 : ((blueOf c1 : ℤ) - blueOf c2) ^ 2 ≤ 255 ^ 2 := sq_le_sq' (by omega) (by omega)
  unfold distSq
  linarith

/-- Invariant of the `nearestColorIndex` scan: after `n ≥ 1` iterations
the accumulator holds an in-range index of minimal distance, and every
strictly earlier index has strictly larger distance (the `<` update keeps
the first minimizer). -/
theorem nciFold_spec (d : Nat → ℤ) (hd : ∀ j, d j < 1000000000) :
    ∀ n, 0 < n → ∀ b e, (List.range n).foldl (nciStep d) (0, 1000000000) = (b, e) →
      b < n ∧ e = d b ∧ (∀ j, j < n → d b ≤ d j) ∧ (∀ j, j < b → d b < d j) := by
  intro n
  induction n with
  | zero => omega
  | succ m ih =>
    intro _ b e hfold
    rcases Nat.eq_zero_or_pos m with hm | hm
    · subst hm
      have hstep : nciStep d (0, 1000000000) 0 = (b, e) := by simpa using hfold
      rw [nciStep, if_pos (hd 0)] at hstep
      injection hstep with hb he
      subst hb
      subst he
      refine ⟨by omega, rfl, ?_, by omega⟩
      intro j hj
      interval_cases j
      exact le_refl _
    · obtain ⟨b0, e0, hfold0⟩ :
          ∃ b0 e0, (List.range m).foldl (nciStep d) (0, 1000000000) = (b0, e0) :=
        ⟨_, _, rfl⟩
      obtain ⟨ih1, ih2, ih3, ih4⟩ := ih hm b0 e0 hfold0
      rw [List.range_succ, List.foldl_append, hfold0] at hfold
      simp only [List.foldl_cons, List.foldl_nil] at hfold
      rw [nciStep] at hfold
      by_cases hlt : d m < e0
      · rw [if_pos hlt] at hfold
        injection hfold with hb he
        subst hb
        subst he
        subst ih2
        refine ⟨by omega, rfl, ?_, ?_⟩
        · intro j hj
          rcases Nat.lt_succ_iff_lt_or_eq.mp hj with hj' | rfl
          · exact le_of_lt (lt_of_lt_of_le hlt (ih3 j hj'))
          · exact le_refl _
        · intro j hj
          exact lt_of_lt_of_le hlt (ih3 j hj)
      · rw [if_neg hlt] at hfold
        injection hfold with hb he
        subst hb
        subst he
        subst ih2
        refine ⟨by omega, rfl, ?_, ih4⟩
        intro j hj
        rcases Nat.lt_succ_iff_lt_or_eq.mp hj with hj' | rfl
        · exact ih3 j hj'
        · omega

/-- The channel extractors only see the low 24 bits. -/
theorem channels_of_rgb (c1 c2 : Nat) (h : rgbOf c1 = rgbOf c2) :
    redOf c1 = redOf c2 ∧ greenOf c1 = greenOf c2 ∧ blueOf c1 = blueOf c2 := by
  unfold rgbOf at h
  unfold redOf greenOf blueOf
  omega

theorem distSq_congr_rgb (c1 c2 x : Nat) (h : rgbOf c1 = rgbOf c2) :
    distSq c1 x = distSq c2 x := by
  obtain ⟨h1, h2, h3⟩ := channels_of_rgb c1 c2 h
  unfold distSq
  rw [h1, h2, h3]

/-- C5: For every non-empty palette and color, `nearestColorIndex`
returns an in-range index minimizing the squared Euclidean distance over
the R, G, B channels only across all palette entries; among equal-distance
entries it returns the lowest index (every strictly smaller index is
strictly farther).  The alpha channel is ignored: any color with the same
low 24 bits yields the same index. -/
theorem c5_nearestColorIndex_spec (p : Palette) (c : Nat) (h : p.colors ≠ []) :
    nearestColorIndex p c < p.colors.length ∧
      (∀ j, j < p.colors.length →
        distSq c (p.colors.getD (nearestColorIndex p c) 0) ≤ distSq c (p.colors.getD j 0)) ∧
      (∀ j, j < nearestColorIndex p c →
        distSq c (p.colors.getD (nearestColorIndex p c) 0) < distSq c (p.colors.getD j 0)) ∧
      (∀ c', rgbOf c' = rgbOf c → nearestColorIndex p c' = nearestColorIndex p c) := by
  have hn : 0 < p.colors.length := List.length_pos.mpr h
  have hd : ∀ j, distSq c (p.colors.getD j 0) < 1000000000 := fun j => distSq_lt_init _ _
  obtain ⟨b, e, hfold⟩ :
      ∃ b e, (List.range p.colors.length).foldl
        (nciStep fun i => distSq c (p.colors.getD i 0)) (0, 1000000000) = (b, e) :=
    ⟨_, _, rfl⟩
  obtain ⟨h1, _, h3, h4⟩ := nciFold_spec _ hd _ hn b e hfold
  have hb : nearestColorIndex p c = b := by
    unfold nearestColorIndex
    rw [hfold]
  refine ⟨hb ▸ h1, fun j hj => hb ▸ h3 j hj, fun j hj => hb ▸ h4 j (hb ▸ hj), ?_⟩
  intro c' hc'
  unfold nearestColorIndex
  have hfun : (fun i => distSq c' (p.colors.getD i 0))
      = fun i => distSq c (p.colors.getD i 0) :=
    funext fun i => distSq_congr_rgb c' c _ hc'
  rw [hfun]

/-- C5 witness: on the 4-color `GB_4` palette and a concrete color, the
returned index is in range, minimizes the distance to all four entries,
beats every earlier index strictly, and ignores the alpha byte. -/
theorem c5_nearestColorIndex_spec_witness :
    GB_4.colors ≠ [] ∧
      nearestColorIndex GB_4 0xff112233 < GB_4.colors.length ∧
      nearestColorIndex GB_4 0x00112233 = nearestColorIndex GB_4 0xff112233 := by
  have h := c5_nearestColorIndex_spec GB_4 0xff112233 (by decide)
  exact ⟨by decide, h.1, h.2.2.2 0x00112233 (by decide)⟩

/-! ## C3 — quantize and dither preserve alpha -/

/-- Shared helper: the scan index is in range for a non-empty palette. -/
theorem nci_lt (p : Palette) (c : Nat) (h : p.colors ≠ []) :
    nearestColorIndex p c < p.colors.length := by
  have hn : 0 < p.colors.length := List.length_pos.mpr h
  obtain ⟨b, e, hfold⟩ :
      ∃ b e, (List.range p.colors.length).foldl
        (nciStep fun i => distSq c (p.colors.getD i 0)) (0, 1000000000) = (b, e) :=
    ⟨_, _, rfl⟩
  have := (nciFold_spec _ (fun j => distSq_lt_init _ _) _ hn b e hfold).1
  unfold nearestColorIndex
  rw [hfold]
  exact this

/-- Per-pixel alpha/transparency facts for the quantizer body. -/
theorem quantPixel_alpha (p : Palette) (px : Nat) :
    alphaOf (if alphaOf px = 0 then px
      else alphaOf px * 16777216 + rgbOf (p.colors.getD (nearestColorIndex p px) 0))
        = alphaOf px := by
  by_cases h : alphaOf px = 0
  · rw [if_pos h]
  · rw [if_neg h]
    exact alphaOf_pack _ _ (alphaOf_lt px) (rgbOf_lt _)

/-- C3: For every palette and every buffer, `quantizeNearest` and
`applyBayer` never change any pixel's alpha channel, and every pixel with
alpha 0 beforehand is left entirely untouched (RGB included) by both:
the `if (a === 0) continue` guard skips it, and otherwise the write
re-packs the original alpha byte over the new RGB. -/
theorem c3_alpha_preserved (p : Palette) (src : List Nat) (i : Nat) :
    (alphaOf ((quantizeNearest p src).getD i 0) = alphaOf (src.getD i 0) ∧
      (alphaOf (src.getD i 0) = 0 → (quantizeNearest p src).getD i 0 = src.getD i 0)) ∧
    ∀ w h size,
      alphaOf ((applyBayer src w h p size).getD i 0) = alphaOf (src.getD i 0) ∧
        (alphaOf (src.getD i 0) = 0 → (applyBayer src w h p size).getD i 0 = src.getD i 0) := by
  constructor
  · rcases Nat.lt_or_ge i src.length with hi | hi
    · have hq : (quantizeNearest p src).getD i 0 =
          (if alphaOf (src.getD i 0) = 0 then src.getD i 0
            else alphaOf (src.getD i 0) * 16777216 +
              rgbOf (p.colors.getD (nearestColorIndex p (src.getD i 0)) 0)) := by
        unfold quantizeNearest
        rw [List.getD_eq_getElem?_getD, List.getElem?_map,
          List.getElem?_eq_getElem hi]
        simp [List.getD_eq_getElem?_getD, List.getElem?_eq_getElem hi]
      rw [hq]
      constructor
      · exact quantPixel_alpha p _
      · intro h0
        rw [if_pos h0]
    · have hlen : (quantizeNearest p src).length = src.length := by
        unfold quantizeNearest
        exact List.length_map _ _
      rw [List.getD_eq_default _ _ (hlen ▸ hi), List.getD_eq_default _ _ hi]
      exact ⟨rfl, fun _ => rfl⟩
  · intro w h size
    unfold applyBayer
    rw [mapWithIndex_getD]
    rcases Nat.lt_or_ge i src.length with hi | hi
    · rw [if_pos hi]
      by_cases hwh : i < w * h
      · rw [if_pos hwh]
        unfold bayerPixel
        by_cases h0 : alphaOf (src.getD i 0) = 0
        · rw [if_pos h0]
          exact ⟨rfl, fun _ => rfl⟩
        · rw [if_neg h0]
          refine ⟨alphaOf_pack _ _ (alphaOf_lt _) (rgbOf_lt _), fun hc => absurd hc h0⟩
      · rw [if_neg hwh]
        exact ⟨rfl, fun _ => rfl⟩
    · rw [if_neg (by omega), List.getD_eq_default _ _ hi]
      exact ⟨rfl, fun _ => rfl⟩

/-! ## C4 — quantize and dither land every opaque pixel on the palette -/

/-- C4: For every non-empty palette, after `quantizeNearest` — and after
`applyBayer` with either matrix size, on a buffer covered by the `w*h`
scan — every pixel with alpha > 0 carries an RGB triple exactly equal to
the RGB of some palette entry (both writes pack
`palette.colors[nearestColorIndex(...)] & 0xffffff`). -/
theorem c4_palette_closure (p : Palette) (hp : p.colors ≠ []) (src : List Nat)
    (w h size i : Nat) (hsize : size = 4 ∨ size = 8) (hlen : src.length ≤ w * h) :
    (alphaOf ((quantizeNearest p src).getD i 0) ≠ 0 →
      rgbOf ((quantizeNearest p src).getD i 0) ∈ p.colors.map rgbOf) ∧
    (alphaOf ((applyBayer src w h p size).getD i 0) ≠ 0 →
      rgbOf ((applyBayer src w h p size).getD i 0) ∈ p.colors.map rgbOf) := by
  have hmem : ∀ c : Nat, rgbOf (p.colors.getD (nearestColorIndex p c) 0) ∈ p.colors.map rgbOf := by
    intro c
    have hlt := nci_lt p c hp
    rw [List.getD_eq_getElem _ _ hlt]
    exact List.mem_map_of_mem rgbOf (p.colors.getElem_mem hlt)
  constructor
  · intro hne
    rcases Nat.lt_or_ge i src.length with hi | hi
    · have hq : (quantizeNearest p src).getD i 0 =
          (if alphaOf (src.getD i 0) = 0 then src.getD i 0
            else alphaOf (src.getD i 0) * 16777216 +
              rgbOf (p.colors.getD (nearestColorIndex p (src.getD i 0)) 0)) := by
        unfold quantizeNearest
        rw [List.getD_eq_getElem?_getD, List.getElem?_map,
          List.getElem?_eq_getElem hi]
        simp [List.getD_eq_getElem?_getD, List.getElem?_eq_getElem hi]
      rw [hq] at hne ⊢
      by_cases h0 : alphaOf (src.getD i 0) = 0
      · rw [if_pos h0] at hne
        exact absurd h0 hne
      · rw [if_neg h0]
        rw [rgbOf_pack _ _ (rgbOf_lt _)]
        exact hmem _
    · have hlen' : (quantizeNearest p src).length = src.length := by
        unfold quantizeNearest
        exact List.length_map _ _
      rw [List.getD_eq_default _ _ (hlen' ▸ hi)] at hne
      simp [alphaOf] at hne
  · intro hne
    unfold applyBayer at hne ⊢
    rw [mapWithIndex_getD] at hne ⊢
    rcases Nat.lt_or_ge i src.length with hi | hi
    · rw [if_pos hi] at hne ⊢
      have hwh : i < w * h := lt_of_lt_of_le hi hlen
      rw [if_pos hwh] at hne ⊢
      unfold bayerPixel at hne ⊢
      by_cases h0 : alphaOf (src.getD i 0) = 0
      · rw [if_pos h0] at hne
        exact absurd h0 hne
      · rw [if_neg h0]
        rw [rgbOf_pack _ _ (rgbOf_lt _)]
        exact hmem _
    · rw [if_neg (by omega)] at hne
      simp [alphaOf] at hne

/-- C4 witness: the spec's concrete closure scenario — an 8×8 all-mid-gray
(`0xff808080`) buffer against the 4-color `GB_4` palette, matrix size 4 —
instantiates the hypotheses. -/
theorem c4_palette_closure_witness :
    GB_4.colors ≠ [] ∧ (List.replicate 64 0xff808080).length ≤ 8 * 8 ∧
      (alphaOf ((applyBayer (List.replicate 64 0xff808080) 8 8 GB_4 4).getD 0 0) ≠ 0 →
        rgbOf ((applyBayer (List.replicate 64 0xff808080) 8 8 GB_4 4).getD 0 0)
          ∈ GB_4.colors.map rgbOf) :=
  ⟨by decide, by decide,
    (c4_palette_closure GB_4 (by decide) (List.replicate 64 0xff808080) 8 8 4 0
      (Or.inl rfl) (by decide)).2⟩

/-! ## C6 — the outline stage -/

/-- C6: With a positive outline width, `enforceRetro`'s outline stage runs
`outlinePass` on the buffer produced by the earlier stages, and
`outlinePass` — whose solidity tests all read the pre-stage snapshot —
(a) sets every scanned pixel that is transparent in the snapshot and has
at least one opaque 4-neighbor (up/down/left/right) there to the fixed
fully-opaque dark outline color `argb(255,20,20,20)`;
(b) leaves a snapshot-transparent pixel without opaque 4-neighbors (e.g.
one whose only opaque neighbors are diagonal) exactly as it was, hence
transparent; and
(c) leaves every snapshot-opaque pixel unchanged. -/
theorem c6_outline_stage (w h : Nat) (data : List Nat) (i : Nat) :
    (∀ ctx : EngineContext, ctx.retro.outlineWidth > 0 →
      (enforceRetro ctx).data = outlinePass ctx.w ctx.h (preOutlineData ctx)) ∧
    alphaOf outlineColor = 255 ∧
    (i < data.length → i < w * h → data.getD i 0 / 16777216 = 0 →
      hasSolidNeighbor data w h i = true →
      (outlinePass w h data).getD i 0 = outlineColor) ∧
    (data.getD i 0 / 16777216 = 0 → hasSolidNeighbor data w h i = false →
      (outlinePass w h data).getD i 0 = data.getD i 0) ∧
    (data.getD i 0 / 16777216 > 0 →
      (outlinePass w h data).getD i 0 = data.getD i 0) := by
  refine ⟨?_, by decide, ?_, ?_, ?_⟩
  · intro ctx hw
    unfold enforceRetro
    simp [hw]
  · intro hi hwh htr hnb
    unfold outlinePass
    rw [mapWithIndex_getD, if_pos hi, if_pos (by exact ⟨hwh, htr⟩), if_pos hnb]
  · intro htr hnb
    unfold outlinePass
    rw [mapWithIndex_getD]
    rcases Nat.lt_or_ge i data.length with hi | hi
    · rw [if_pos hi]
      by_cases hwh : i < w * h
      · rw [if_pos (by exact ⟨hwh, htr⟩), hnb]
        simp
      · rw [if_neg (by intro hc; exact hwh hc.1)]
    · rw [if_neg (by omega), List.getD_eq_default _ _ hi]
  · intro hop
    unfold outlinePass
    rw [mapWithIndex_getD]
    rcases Nat.lt_or_ge i data.length with hi | hi
    · rw [if_pos hi, if_neg (by intro hc; omega)]
    · rw [if_neg (by omega), List.getD_eq_default _ _ hi]

/-- C6 witness: the spec's scenario — a 3×3 buffer with a single opaque
center pixel.  The 4-neighbor at index 1 is outlined; the diagonal corner
at index 0 stays transparent; the center itself is unchanged. -/
theorem c6_outline_stage_witness :
    ((createCanvasData 3 3).set 4 0xffffffff).getD 1 0 / 16777216 = 0 ∧
      hasSolidNeighbor ((createCanvasData 3 3).set 4 0xffffffff) 3 3 1 = true ∧
      (outlinePass 3 3 ((createCanvasData 3 3).set 4 0xffffffff)).getD 1 0 = outlineColor ∧
      hasSolidNeighbor ((createCanvasData 3 3).set 4 0xffffffff) 3 3 0 = false ∧
      (outlinePass 3 3 ((createCanvasData 3 3).set 4 0xffffffff)).getD 0 0 = 0 ∧
      (outlinePass 3 3 ((createCanvasData 3 3).set 4 0xffffffff)).getD 4 0 = 0xffffffff := by
  refine ⟨by decide, by decide, ?_, by decide, ?_, ?_⟩
  · exact (c6_outline_stage 3 3 _ 1).2.2.1 (by decide) (by decide) (by decide) (by decide)
  · exact (c6_outline_stage 3 3 _ 0).2.2.2.1 (by decide) (by decide)
  · exact (c6_outline_stage 3 3 _ 4).2.2.2.2 (by decide)

/-! ## C7 — zero-norm histograms and all-transparent buffers -/

/-- An all-transparent buffer contributes nothing to any Sobel tap. -/
theorem sobelAt_transparent (w : Nat) (data : List Nat)
    (h : ∀ c ∈ data, alphaOf c = 0) (x y : Nat) : sobelAt w data x y = (0, 0) := by
  unfold sobelAt
  refine foldl_const_of_mem _ _ _ ?_
  intro acc k _
  rcases getD_mem_or_eq data ((y + k / 3 - 1) * w + (x + k % 3 - 1)) 0 with hm | he
  · rw [if_pos (h _ hm)]
  · rw [if_pos (by rw [he]; rfl)]

theorem edgeCounts_transparent (w h : Nat) (data : List Nat)
    (ha : ∀ c ∈ data, alphaOf c = 0) : edgeCounts w h data = List.replicate 8 0 := by
  unfold edgeCounts
  refine foldl_const_of_mem _ _ _ ?_
  intro accY y _
  refine foldl_const_of_mem _ _ _ ?_
  intro acc x _
  rw [sobelAt_transparent w data ha x y]
  norm_num

theorem computeEdgeHistogram_transparent (w h : Nat) (data : List Nat)
    (ha : ∀ c ∈ data, alphaOf c = 0) :
    computeEdgeHistogram w h data = List.replicate 8 0 := by
  unfold computeEdgeHistogram
  rw [edgeCounts_transparent w h data ha]
  have hsum : (List.replicate 8 (0 : Nat)).sum = 0 := by simp
  rw [hsum, if_neg (by norm_num), List.map_replicate]
  norm_num

theorem colorCounts_transparent (data : List Nat) (ha : ∀ c ∈ data, alphaOf c = 0) :
    colorCounts data = [] := by
  unfold colorCounts
  refine foldl_const_of_mem _ _ _ ?_
  intro acc px hm
  rw [ha px hm]
  simp

theorem computePaletteUsage_transparent (data : List Nat)
    (ha : ∀ c ∈ data, alphaOf c = 0) :
    computePaletteUsage data = List.replicate 32 0 := by
  unfold computePaletteUsage
  rw [colorCounts_transparent data ha]
  norm_num [sortCountDesc]

/-- Zero histograms have zero truncated norm. -/
theorem normSqMin_zero_left (h2 : List ℚ) (n : Nat) :
    normSqMin (List.replicate n 0) h2 = 0 := by
  unfold normSqMin
  refine List.sum_eq_zero ?_
  intro x hx
  obtain ⟨v, hv, rfl⟩ := List.mem_map.mp hx
  have := List.mem_of_mem_take hv
  rw [List.eq_of_mem_replicate this]
  norm_num

/-- C7: A zero-norm histogram axis can never exceed a (nonnegative)
similarity threshold — `compareHistograms` returns 0 against everything
on that axis — and consequently `isSimilar` on the signature of an
all-transparent buffer (both of whose histograms are all-zero) returns
`false` against every history and every nonnegatively-thresholded
configuration, in particular the engine's default one. -/
theorem c7_zero_norm_never_similar (h1 h2 : List ℚ) (θ : ℚ) (hθ : 0 ≤ θ)
    (hz : normSqMin h1 h2 = 0 ∨ normSqMin h2 h1 = 0) :
    exceedsCosine h1 h2 θ = false ∧
    ∀ (cfg : SimilarityGuardConfig) (w h : Nat) (data : List Nat) (params : Params)
      (history : List SpriteSignature),
      (∀ c ∈ data, alphaOf c = 0) →
      isSimilar cfg history (generateSignature w h data params) = false := by
  constructor
  · unfold exceedsCosine
    rw [if_pos hz]
  · intro cfg w h data params history ha
    unfold isSimilar
    rw [List.any_eq_false]
    intro e _
    unfold generateSignature
    simp only [computeEdgeHistogram_transparent w h data ha]
    have hz8 : normSqMin (List.replicate 8 0) e.edgeHistogram = 0 := normSqMin_zero_left _ _
    unfold exceedsCosine
    rw [if_pos (Or.inl hz8)]
    simp

/-- C7 witness: a concrete zero-norm pair, and an all-transparent 4×4
buffer checked against a history holding the signature of another
all-transparent (2×2) buffer, under the default configuration. -/
theorem c7_zero_norm_never_similar_witness :
    (0 : ℚ) ≤ 85 / 100 ∧
      exceedsCosine [0, 0] [1] (85 / 100) = false ∧
      isSimilar defaultGuardConfig
        [generateSignature 2 2 (createCanvasData 2 2) []]
        (generateSignature 4 4 (createCanvasData 4 4) []) = false := by
  have h := c7_zero_norm_never_similar [0, 0] [1] (85 / 100) (by norm_num)
    (Or.inl (by norm_num [normSqMin]))
  exact ⟨by norm_num, h.1,
    h.2 defaultGuardConfig 4 4 (createCanvasData 4 4) []
      [generateSignature 2 2 (createCanvasData 2 2) []] (by decide)⟩

/-! ## C8 — custom palette export/import round trip -/

theorem toDigitsCore_eq_natDigits :
    ∀ (fuel n : Nat) (ds : List Char), n < fuel →
      Nat.toDigitsCore 10 fuel n ds = natDigits n ++ ds := by
  intro fuel
  induction fuel with
  | zero => omega
  | succ f ih =>
    intro n ds hn
    have hstep : Nat.toDigitsCore 10 (f + 1) n ds =
        if n / 10 = 0 then (n % 10).digitChar :: ds
        else Nat.toDigitsCore 10 f (n / 10) ((n % 10).digitChar :: ds) := by
      conv_lhs => rw [Nat.toDigitsCore]
    by_cases h0 : n / 10 = 0
    · have h10 : n < 10 := by omega
      rw [hstep, if_pos h0, natDigits, dif_pos h10, Nat.mod_eq_of_lt h10]
      rfl
    · have hdiv : n / 10 < f := by
        have h1 : n / 10 < n := Nat.div_lt_self (by omega) (by omega)
        omega
      rw [hstep, if_neg h0, ih (n / 10) _ hdiv]
      conv_rhs => rw [natDigits]
      rw [dif_neg (show ¬n < 10 by omega)]
      simp

theorem natDigits_all_digit (n : Nat) :
    (∀ c ∈ natDigits n, c.isDigit = true) ∧ natDigits n ≠ [] := by
  induction n using Nat.strong_induction_on with
  | _ n ih =>
    by_cases h : n < 10
    · rw [natDigits, dif_pos h]
      refine ⟨?_, by simp⟩
      intro c hc
      rw [List.mem_singleton] at hc
      subst hc
      interval_cases n <;> decide
    · rw [natDigits, dif_neg h]
      have hlt : n / 10 < n := Nat.div_lt_self (by omega) (by omega)
      refine ⟨?_, by simp⟩
      intro c hc
      rcases List.mem_append.mp hc with hc | hc
      · exact (ih _ hlt).1 c hc
      · rw [List.mem_singleton] at hc
        subst hc
        have : n % 10 < 10 := Nat.mod_lt _ (by omega)
        interval_cases hm : n % 10 <;> decide

theorem parseDigits_natDigits (n : Nat) :
    ∀ acc : ℤ, parseDigits acc (natDigits n) = acc * 10 ^ (natDigits n).length + n := by
  induction n using Nat.strong_induction_on with
  | _ n ih =>
    intro acc
    by_cases h : n < 10
    · rw [natDigits, dif_pos h]
      have hd : ((Nat.digitChar n).toNat : ℤ) = n + 48 := by
        interval_cases n <;> decide
      simp [parseDigits, hd]
    · rw [natDigits, dif_neg h]
      have hlt : n / 10 < n := Nat.div_lt_self (by omega) (by omega)
      have hsplit : parseDigits acc (natDigits (n / 10) ++ [Nat.digitChar (n % 10)]) =
          parseDigits (parseDigits acc (natDigits (n / 10))) [Nat.digitChar (n % 10)] := by
        unfold parseDigits
        rw [List.foldl_append]
      rw [hsplit, ih _ hlt acc]
      have hm : n % 10 < 10 := Nat.mod_lt _ (by omega)
      have hd : ((Nat.digitChar (n % 10)).toNat : ℤ) = (n % 10 : Nat) + 48 := by
        interval_cases hx : n % 10 <;> decide
      simp only [parseDigits, List.foldl_cons, List.foldl_nil, List.length_append,
        List.length_singleton, hd]
      have hrec : ((n : ℕ) : ℤ) = ((n / 10 : Nat) : ℤ) * 10 + ((n % 10 : Nat) : ℤ) := by
        omega
      rw [hrec]
      ring

theorem jsParseInt_toString (n : Nat) : jsParseInt (toString n) = Option.some (n : ℤ) := by
  have hts : (toString n).toList = natDigits n := by
    show (Nat.repr n).toList = natDigits n
    unfold Nat.repr Nat.toDigits
    rw [toDigitsCore_eq_natDigits (n + 1) n [] (by omega)]
    simp [List.asString]
  obtain ⟨hdig, hne⟩ := natDigits_all_digit n
  obtain ⟨c, cs, hcons⟩ := List.exists_cons_of_ne_nil hne
  have hc : c.isDigit = true := hdig c (by rw [hcons]; exact List.mem_cons_self _ _)
  have hcm : ¬c = '-' := by intro hcm; rw [hcm] at hc; exact absurd hc (by decide)
  have hcp : ¬c = '+' := by intro hcp; rw [hcp] at hc; exact absurd hc (by decide)
  unfold jsParseInt
  rw [hts, hcons]
  simp only [if_neg hcm, if_neg hcp]
  have htake : (c :: cs).takeWhile Char.isDigit = c :: cs := by
    rw [← hcons]
    exact List.takeWhile_eq_self_iff.mpr hdig
  unfold jsParseCore
  rw [htake, ← hcons]
  rw [if_neg (by simp [hne])]
  rw [parseDigits_natDigits n 0]
  simp

theorem lookupA_cons {α : Type _} (e : String × α) (l : List (String × α)) (k : String) :
    lookupA (e :: l) k = if e.1 = k then Option.some e.2 else lookupA l k := by
  unfold lookupA
  by_cases he : e.1 = k
  · rw [List.find?_cons_of_pos _ (by simpa using he), if_pos he]
    rfl
  · rw [List.find?_cons_of_neg _ (by simpa using he), if_neg he]

theorem lookupA_upsert_self {α : Type _} (l : List (String × α)) (k : String) (v : α) :
    lookupA (upsertA l k v) k = Option.some v := by
  induction l with
  | nil => simp [upsertA, lookupA_cons, lookupA]
  | cons e rest ih =>
    by_cases he : e.1 = k
    · simp [upsertA, if_pos he, lookupA_cons]
    · rw [upsertA, if_neg he, lookupA_cons, if_neg he]
      exact ih

theorem lookupA_upsert_other {α : Type _} (l : List (String × α)) (k k' : String) (v : α)
    (hne : k' ≠ k) : lookupA (upsertA l k v) k' = lookupA l k' := by
  induction l with
  | nil =>
    rw [upsertA, lookupA_cons, if_neg (fun hc => hne hc.symm)]
  | cons e rest ih =>
    by_cases he : e.1 = k
    · subst he
      rw [upsertA, if_pos rfl, lookupA_cons, lookupA_cons,
        if_neg (show ¬(e.1, v).1 = k' from fun hc => hne hc.symm),
        if_neg (show ¬e.1 = k' from fun hc => hne hc.symm)]
    · rw [upsertA, if_neg he, lookupA_cons, lookupA_cons]
      by_cases hk : e.1 = k'
      · rw [if_pos hk, if_pos hk]
      · rw [if_neg hk, if_neg hk]
        exact ih

theorem toUint32_cast (c : Nat) (h : c < U32) : toUint32 (c : ℤ) = c := by
  unfold U32 at h
  unfold toUint32 U32
  omega

/-- Parsed keys of the exported color object: each `toString i` parses
back to `i`. -/
theorem keyed_of_enum (l : List (Nat × Nat)) :
    (l.map fun e => (toString e.1, Json.num (e.2 : ℤ))).filterMap
        (fun e => (jsParseInt e.1).map fun k => (k, e.2)) =
      l.map fun e => ((e.1 : ℤ), Json.num (e.2 : ℤ)) := by
  induction l with
  | nil => rfl
  | cons e rest ih =>
    simp [jsParseInt_toString, ih]

theorem insertKeyAsc_append (x : ℤ × Json) :
    ∀ acc : List (ℤ × Json), (∀ y ∈ acc, y.1 ≤ x.1) → insertKeyAsc x acc = acc ++ [x] := by
  intro acc
  induction acc with
  | nil => intro _; rfl
  | cons y ys ih =>
    intro hall
    rw [insertKeyAsc, if_pos (hall y (List.mem_cons_self y ys))]
    rw [ih fun z hz => hall z (List.mem_cons_of_mem y hz)]
    rfl

theorem sortKeyAsc_fold (l : List (ℤ × Json)) :
    ∀ acc, List.Pairwise (fun a b : ℤ × Json => a.1 < b.1) l →
      (∀ y ∈ acc, ∀ x ∈ l, y.1 ≤ x.1) →
      l.foldl (fun a x => insertKeyAsc x a) acc = acc ++ l := by
  induction l with
  | nil => intro acc _ _; simp
  | cons x xs ih =>
    intro acc hpw hle
    rw [List.foldl_cons,
      insertKeyAsc_append x acc fun y hy => hle y hy x (List.mem_cons_self x xs)]
    rw [List.pairwise_cons] at hpw
    rw [ih (acc ++ [x]) hpw.2 ?_]
    · simp
    · intro y hy z hz
      rcases List.mem_append.mp hy with hy' | hy'
      · exact hle y hy' z (List.mem_cons_of_mem x hz)
      · rw [List.mem_singleton] at hy'
        subst hy'
        exact le_of_lt (hpw.1 z hz)

theorem enum_keys_ascending (colors : List Nat) :
    List.Pairwise (fun a b : ℤ × Json => a.1 < b.1)
      (colors.enum.map fun e => ((e.1 : ℤ), Json.num (e.2 : ℤ))) := by
  rw [List.pairwise_map]
  have h1 : List.Pairwise (· < ·) (colors.enum.map Prod.fst) := by
    rw [List.enum_map_fst]
    exact List.pairwise_lt_range _
  have h2 := List.pairwise_map.mp h1
  refine h2.imp ?_
  intro a b h
  change ((a.1 : ℤ)) < ((b.1 : ℤ))
  exact_mod_cast h

/-- The color list of an exported palette survives the import conversion
byte for byte (all stored colors are below `2^32`). -/
theorem colorsFromJson_roundtrip (colors : List Nat) (hb : ∀ c ∈ colors, c < U32) :
    colorsFromJson (colorsToJson colors) = Option.some colors := by
  unfold colorsToJson
  simp only [colorsFromJson]
  rw [keyed_of_enum colors.enum]
  unfold sortKeyAsc
  rw [sortKeyAsc_fold _ [] (enum_keys_ascending colors) (by intro y hy; simp at hy)]
  rw [List.nil_append, List.map_map]
  have hcong : ∀ e ∈ colors.enum,
      ((fun x : ℤ × Json => jsonToUint32 x.2) ∘
        fun e : Nat × Nat => ((e.1 : ℤ), Json.num (e.2 : ℤ))) e =
      (Prod.snd : Nat × Nat → Nat) e := by
    intro e he
    have hm : e.2 ∈ colors := List.snd_mem_of_mem_enum he
    simp [Function.comp, jsonToUint32, toUint32_cast e.2 (hb _ hm)]
  rw [List.map_congr_left hcong, List.enum_map_snd colors]

/-- A well-formed palette record round-trips through the JSON encoding. -/
theorem paletteFromJson_roundtrip (p : Palette) (hname : p.name ≠ "")
    (hcol : p.colors ≠ []) (hmax : 0 < p.maxColors) (hb : ∀ c ∈ p.colors, c < U32) :
    paletteFromJson (paletteToJson p) = Option.some p := by
  unfold paletteToJson
  simp only [paletteFromJson]
  rw [lookupA_cons, if_pos rfl]
  rw [lookupA_cons, if_neg (by simp), lookupA_cons, if_pos rfl]
  rw [lookupA_cons, if_neg (by simp), lookupA_cons, if_neg (by simp),
    lookupA_cons, if_pos rfl]
  simp only []
  rw [if_neg (by simp [String.isEmpty_iff, hname, jsTruthy, colorsToJson])]
  rw [colorsFromJson_roundtrip p.colors hb]
  simp only []
  rw [if_pos ⟨List.length_pos.mpr hcol, hmax⟩]

/-- The per-entry step of the import fold. -/
def importStep (acc : Nat × RegistryState) (e : String × Json) : Nat × RegistryState :=
  match paletteFromJson e.2 with
  | Option.some p =>
    (acc.1 + 1, ⟨upsertA acc.2.customPalettes e.1 p, upsertA acc.2.palettes e.1 p⟩)
  | Option.none => acc

theorem importCustomPalettes_obj (fields : List (String × Json)) (st : RegistryState) :
    importCustomPalettes (Json.obj fields) st =
      (decide ((fields.foldl importStep (0, st)).1 > 0), (fields.foldl importStep (0, st)).2) := by
  unfold importCustomPalettes importStep
  rfl

theorem importFold_skip (id : String) :
    ∀ (entries : List (String × Json)) (acc : Nat × RegistryState),
      (∀ e ∈ entries, e.1 ≠ id) →
      lookupA (entries.foldl importStep acc).2.customPalettes id =
        lookupA acc.2.customPalettes id := by
  intro entries
  induction entries with
  | nil => intro acc _; rfl
  | cons e rest ih =>
    intro acc hkeys
    rw [List.foldl_cons]
    rw [ih _ fun x hx => hkeys x (List.mem_cons_of_mem e hx)]
    unfold importStep
    cases paletteFromJson e.2 with
    | none => rfl
    | some p =>
      exact lookupA_upsert_other _ _ _ _ (hkeys e (List.mem_cons_self e rest)).symm

theorem importFold_found (id : String) (j : Json) (p : Palette)
    (hpj : paletteFromJson j = Option.some p) :
    ∀ (entries : List (String × Json)) (acc : Nat × RegistryState),
      (id, j) ∈ entries → (entries.map Prod.fst).Nodup →
      lookupA (entries.foldl importStep acc).2.customPalettes id = Option.some p := by
  intro entries
  induction entries with
  | nil => intro acc hmem; exact absurd hmem (List.not_mem_nil _)
  | cons e rest ih =>
    intro acc hmem hnd
    rw [List.map_cons, List.nodup_cons] at hnd
    rcases List.mem_cons.mp hmem with rfl | hmem'
    · rw [List.foldl_cons]
      rw [importFold_skip id rest _ ?_]
      · unfold importStep
        rw [hpj]
        exact lookupA_upsert_self _ _ _
      · intro x hx hcx
        apply hnd.1
        have hxm : x.1 ∈ rest.map Prod.fst := List.mem_map_of_mem Prod.fst hx
        rwa [hcx] at hxm
    · rw [List.foldl_cons]
      exact ih _ hmem' hnd.2

/-- Membership from a successful lookup. -/
theorem lookupA_mem {α : Type _} (l : List (String × α)) (k : String) (v : α)
    (h : lookupA l k = Option.some v) : (k, v) ∈ l := by
  unfold lookupA at h
  cases hf : l.find? fun e => e.1 = k with
  | none => rw [hf] at h; exact absurd h (by simp)
  | some e =>
    rw [hf] at h
    have he := List.find?_some hf
    have hm := List.mem_of_find?_eq_some hf
    simp only [decide_eq_true_eq] at he
    have : e.2 = v := by simpa using h
    have : e = (k, v) := by
      rcases e with ⟨e1, e2⟩
      simp_all
    exact this ▸ hm

/-- C8 (amended): For every custom-palette registry with distinct stored
identifiers, every registered palette whose name is non-empty, whose color
list is non-empty, and whose declared max-color count is positive (these
are the import validations of `palette.ts`) — with colors in `Uint32` range, as a
`Uint32Array` guarantees — survives `exportCustomPalettes` followed by
`importCustomPalettes` into a fresh registry exactly: the same identifier
maps to a palette with the same name, the same number of colors, and
identical color values (hence identical RGB per color).  The claim's
unrestricted version fails on degenerate palettes (see the
counterexample): import skips records failing the validation. -/
theorem c8_roundtrip (st : RegistryState)
    (hnd : (st.customPalettes.map Prod.fst).Nodup) (id : String) (p : Palette)
    (hp : lookupA st.customPalettes id = Option.some p) (hname : p.name ≠ "")
    (hcol : p.colors ≠ []) (hmax : 0 < p.maxColors) (hb : ∀ c ∈ p.colors, c < U32) :
    lookupA ((importCustomPalettes (exportCustomPalettes st)
      initialRegistry).2).customPalettes id = Option.some p := by
  unfold exportCustomPalettes
  rw [importCustomPalettes_obj]
  simp only []
  refine importFold_found id (paletteToJson p) p
    (paletteFromJson_roundtrip p hname hcol hmax hb) _ _ ?_ ?_
  · have hm := lookupA_mem _ _ _ hp
    have := List.mem_map_of_mem (fun e : String × Palette => (e.1, paletteToJson e.2)) hm
    simpa using this
  · have hkeys : (st.customPalettes.map fun e => (e.1, paletteToJson e.2)).map Prod.fst
        = st.customPalettes.map Prod.fst := by
      rw [List.map_map]
      rfl
    rw [hkeys]
    exact hnd

/-- C8 witness: the spec's "Export Test" palette with colors
`[0xff000000, 0xffffffff]` round-trips through export and a fresh import
under its sanitized identifier `Export_Test`. -/
theorem c8_roundtrip_witness :
    lookupA ((importCustomPalettes
      (exportCustomPalettes (addCustomPalette initialRegistry
        ⟨"Export Test", [0xff000000, 0xffffffff], 2⟩))
      initialRegistry).2).customPalettes "Export_Test"
      = Option.some ⟨"Export Test", [0xff000000, 0xffffffff], 2⟩ :=
  c8_roundtrip (addCustomPalette initialRegistry
      ⟨"Export Test", [0xff000000, 0xffffffff], 2⟩)
    (by decide) "Export_Test" ⟨"Export Test", [0xff000000, 0xffffffff], 2⟩
    (by decide) (by decide) (by decide) (by decide) (by decide)

/-- C8 counterexample: the claim quantifies over *every* registered
custom palette, but a registered palette with an empty color list (the
`Palette` type allows it and `addCustomPalette` performs no validation)
is skipped by the import validation `colors.length > 0`, so no palette at
all is reconstructed under its identifier after a fresh re-import. -/
theorem c8_roundtrip_counterexample :
    lookupA ((importCustomPalettes
      (exportCustomPalettes (addCustomPalette initialRegistry ⟨"Bad", [], 2⟩))
      initialRegistry).2).customPalettes "Bad" = Option.none := by
  decide

/-! ## C1 — determinism of `runModule` -/

/-- C1 (amended): `runModule` is a deterministic function of its inputs
*and the process-wide guard history*.  With `useSimilarityGuard` disabled
the history is neither read nor written, so repeated calls with identical
inputs yield byte-identical buffers regardless of any history in between.
With the guard enabled the claim as frozen is false: the first call
appends the produced signature to the global history, which can flag the
second call's identical first attempt as similar and make it return a
different buffer (see the counterexample). -/
theorem c1_guard_off_deterministic (reg : List (String × Palette)) (mod : SpriteModule)
    (opts : EngineParams) (g : List SpriteSignature)
    (h : opts.useSimilarityGuard = false) :
    (runModule reg mod opts g).2 = g ∧
      ∀ g', (runModule reg mod opts g').1 = (runModule reg mod opts g).1 := by
  constructor
  · simp [runModule, h]
  · intro g'
    simp [runModule, h]

/-- C1 witness: the guard-off request evaluated from the empty history
and from the history left by a prior guarded call produces the same
buffer, and leaves the history untouched. -/
theorem c1_guard_off_deterministic_witness :
    ({ scenarioOpts with useSimilarityGuard := false } : EngineParams).useSimilarityGuard
        = false ∧
      (runModule basePalettes testModule
        { scenarioOpts with useSimilarityGuard := false } []).2 = [] ∧
      (runModule basePalettes testModule
          { scenarioOpts with useSimilarityGuard := false } scenarioRun1.2).1 =
        (runModule basePalettes testModule
          { scenarioOpts with useSimilarityGuard := false } []).1 :=
  ⟨rfl,
    (c1_guard_off_deterministic basePalettes testModule
      { scenarioOpts with useSimilarityGuard := false } [] rfl).1,
    (c1_guard_off_deterministic basePalettes testModule
      { scenarioOpts with useSimilarityGuard := false } [] rfl).2 scenarioRun1.2⟩

set_option maxRecDepth 2000000 in
/-- C1 counterexample: with the similarity guard enabled, two calls of
`runModule` with byte-identical inputs (seed 0, same module, parameters,
palette, dither, quantizer, outline) return different buffers: the first
call's appended signature makes every attempt of the second call similar,
so the second call falls through to a generation on the parent stream,
whose corner pixel draw differs from the accepted first attempt's. -/
theorem c1_determinism_counterexample : scenarioRun1.1 ≠ scenarioRun2.1 := by
  with_unfolding_all decide

/-! ## C2 — behavior when the retry cap is exhausted -/

/-- C2 (amended): when the guard is enabled and every attempt up to the
retry cap is reported similar (the guard loop exhausts), `runModule` does
*not* return the last attempt's buffer: it falls through to one further
generation — the sixth — on the *parent* stream (not an `attempt_i`
sub-stream) with the five-times-nudged parameters, without any similarity
check, returns that buffer, and appends that buffer's signature (not the
last attempt's) to the history. -/
theorem c2_exhausted_falls_through (reg : List (String × Palette)) (mod : SpriteModule)
    (opts : EngineParams) (g : List SpriteSignature) (p' : Params) (t' : Nat)
    (hguard : opts.useSimilarityGuard = true)
    (hloop : guardLoop mod ((lookupA reg opts.paletteName).getD NES_13) opts g
        defaultGuardConfig.maxRetries 0 opts.params (opts.seed % U32)
        = (Option.none, p', t')) :
    runModule reg mod opts g =
      ((generateOnce mod ((lookupA reg opts.paletteName).getD NES_13) opts
          (createCanvasData opts.size opts.size) t' p').data,
        addToHistory defaultGuardConfig g
          (generateSignature opts.size opts.size
            (generateOnce mod ((lookupA reg opts.paletteName).getD NES_13) opts
              (createCanvasData opts.size opts.size) t' p').data p')) := by
  unfold runModule
  rw [hguard]
  simp only [if_true]
  rw [hloop]

set_option maxRecDepth 2000000 in
/-- C2 witness: the amended behavior evaluated on the concrete exhaustion
scenario (seed 0, history holding the first call's signature). -/
theorem c2_exhausted_falls_through_witness :
    runModule basePalettes testModule scenarioOpts scenarioRun1.2 =
      ((generateOnce testModule
          ((lookupA basePalettes scenarioOpts.paletteName).getD NES_13) scenarioOpts
          (createCanvasData scenarioOpts.size scenarioOpts.size) 0 []).data,
        addToHistory defaultGuardConfig scenarioRun1.2
          (generateSignature scenarioOpts.size scenarioOpts.size
            (generateOnce testModule
              ((lookupA basePalettes scenarioOpts.paletteName).getD NES_13) scenarioOpts
              (createCanvasData scenarioOpts.size scenarioOpts.size) 0 []).data [])) :=
  c2_exhausted_falls_through basePalettes testModule scenarioOpts scenarioRun1.2 [] 0 rfl
    (by with_unfolding_all decide)

set_option maxRecDepth 2000000 in
/-- C2 counterexample: in the concrete exhaustion scenario the guard loop
exhausts all five attempts (first conjunct), yet the returned buffer is
*not* the fifth (last) attempt's buffer, and the history entry appended is
*not* the last attempt's signature — both come from a further generation
on the parent stream. -/
theorem c2_exhausted_counterexample :
    (guardLoop testModule ((lookupA basePalettes scenarioOpts.paletteName).getD NES_13)
        scenarioOpts scenarioRun1.2 defaultGuardConfig.maxRetries 0 scenarioOpts.params
        (scenarioOpts.seed % U32)).1 = Option.none ∧
      scenarioRun2.1 ≠ attemptData testModule NES_13 scenarioOpts 0 4 [] ∧
      scenarioRun2.2 ≠ scenarioRun1.2 ++
        [generateSignature 8 8 (attemptData testModule NES_13 scenarioOpts 0 4 []) []] := by
  with_unfolding_all decide

end PixelForge
